import Mathlib

/-!
Verification development for the HttpPipe repository (main.cc and pipe.h).

C byte buffers are modelled as `List Char`; `snprintf` into a buffer of
`size` bytes stores at most `size - 1` characters and returns the length
the untruncated output would have had, which is modelled by `strTrunc`
together with returning the untruncated length separately.
-/

set_option maxRecDepth 8192

abbrev Bytes := List Char

/-- The bytes of a string literal. -/
def str (s : String) : Bytes := s.data

/-- What `snprintf` into a buffer of `size` bytes stores: at most `size - 1`
characters of the formatted output (the last byte is the terminator). -/
def strTrunc (size : Nat) (s : Bytes) : Bytes := s.take (size - 1)

/-- Case-insensitive byte-string equality, as computed by `strcasecmp(a,b) == 0`. -/
def lcEq (a b : Bytes) : Bool := a.map Char.toLower == b.map Char.toLower

/-- State of the `PostHeader` class of main.cc.  `mac_` and `path_` are
`const char *` pointers that may be `NULL` (`none`); `host_` is a
`char[64]`, `buffer_` a `char[2048]`, both modelled as their C-string
contents. -/
structure PostHeader where
  mac_ : Option Bytes
  path_ : Option Bytes
  compressed_ : Bool
  persistent_ : Bool
  host_ : Bytes
  buffer_ : Bytes
  content_length_offset_ : Nat
deriving DecidableEq

/-- The `PostHeader` constructor: null pointers, not compressed, persistent,
empty buffers, zero content-length offset. -/
def mkPostHeader : PostHeader :=
  { mac_ := none, path_ := none, compressed_ := false, persistent_ := true,
    host_ := [], buffer_ := [], content_length_offset_ := 0 }

/-- Result of a `SetRequest`/`SetField` call: a new state, an `assert(false)`
failure, or undefined behaviour from passing a `NULL` pointer where the
source dereferences it (`snprintf "%s"` / `strcasecmp`). -/
inductive SetResult
  | ok (h : PostHeader)
  | assertFailure
  | nullDeref
deriving DecidableEq

/-- `PostHeader::SetRequest`: records the URI as the request path on the
first call; a second call (path already set) runs `assert(false)`.
The `method` and `ver` arguments are ignored by the source. -/
def SetRequest (h : PostHeader) (method uri ver : Bytes) : SetResult :=
  if h.path_.isNone then .ok { h with path_ := some uri }
  else .assertFailure

/-- `PostHeader::SetField`, following the source's `strcasecmp` chain:
`Host` is copied (truncated) into the 64-byte `host_`; `LETV-TV-MAC` stores
the pointer, only when not already set; `LETV-ZIP` sets the compression flag
from value non-nullness, resetting the memoized offset when it changes;
`Connection` sets persistence from `strcasecmp(value, "close")`, resetting
the memoized offset when it changes; anything else runs `assert(false)`. -/
def SetField (h : PostHeader) (field : Bytes) (value : Option Bytes) : SetResult :=
  if lcEq field (str "Host") then
    match value with
    | some v => .ok { h with host_ := strTrunc 64 v }
    | none => .nullDeref
  else if lcEq field (str "LETV-TV-MAC") && h.mac_.isNone then
    .ok { h with mac_ := value }
  else if lcEq field (str "LETV-ZIP") then
    let t := value.isSome
    if h.compressed_ ≠ t then
      .ok { h with content_length_offset_ := 0, compressed_ := t }
    else
      .ok h
  else if lcEq field (str "Connection") then
    match value with
    | some v =>
      let t := !lcEq v (str "close")
      if h.persistent_ ≠ t then
        .ok { h with content_length_offset_ := 0, persistent_ := t }
      else
        .ok h
    | none => .nullDeref
  else
    .assertFailure

/-- The header text up to and including `"Content-Length: "`, as formatted
by the `snprintf` pattern in `PostHeader::Generate` (program = "pipe",
version = "0.0.1").  glibc renders a `NULL` `%s` argument as `"(null)"`;
the program never generates before setting path and MAC. -/
def headerPart (h : PostHeader) : Bytes :=
  str "POST " ++ h.path_.getD (str "(null)") ++ str " HTTP/1.1\r\n" ++
  str "Host: " ++ h.host_ ++ str "\r\n" ++
  str "User-Agent: pipe/0.0.1\r\n" ++
  str "Accept: */*\r\n" ++
  str "LETV-TV-MAC: " ++ h.mac_.getD (str "(null)") ++ str "\r\n" ++
  (if h.compressed_ then str "LETV-ZIP: 1\r\n" else []) ++
  (if h.persistent_ then [] else str "Connection: close\r\n") ++
  str "Content-Length: "

/-- The bytes `snprintf(..., "%zu\r\n\r\n", body_size)` would format. -/
def tailBytes (body_size : Nat) : Bytes :=
  (toString body_size).data ++ str "\r\n\r\n"

/-- The first half of `PostHeader::Generate`: when `content_length_offset_`
is 0, rebuild the header prefix into `buffer_` (a 2048-byte `snprintf`)
and memoize the returned (untruncated) length. -/
def rebuildIfNeeded (h : PostHeader) : PostHeader :=
  if h.content_length_offset_ = 0 then
    { h with buffer_ := strTrunc 2048 (headerPart h),
             content_length_offset_ := (headerPart h).length }
  else h

/-- `PostHeader::Generate`: rebuild the prefix if needed, then `snprintf`
the length digits and `"\r\n\r\n"` at `buffer_ + content_length_offset_`
with the remaining buffer space, and report
`content_length_offset_ + i` (with `i` the untruncated tail length)
through `head_size`.  Returns (new state, buffer contents, head size). -/
def Generate (h : PostHeader) (body_size : Nat) : PostHeader × Bytes × Nat :=
  let h1 := rebuildIfNeeded h
  let off := h1.content_length_offset_
  let buf := h1.buffer_.take off ++ strTrunc (2048 - off) (tailBytes body_size)
  ({ h1 with buffer_ := buf }, buf, off + (tailBytes body_size).length)

/-- `ParseOptions` stores the `-d` argument with
`strncpy(destination, optarg, sizeof(destination) - 1)` into the zeroed
1024-byte global: the C-string result is the first 1023 bytes. -/
def destinationOf (optarg : Bytes) : Bytes := optarg.take 1023

/-- Modelled from the spec: the transfer-rate pacing computation of
`HttpPipe` (around `transfer_rate_` and the `milestone` timestamp).  The
implementation file pipe.cc is not in src/, only the declarations in
pipe.h; spec 4.5: "the allowance for this tick is `R * dt / 1_000_000`,
floor-clamped to the remaining unsent body bytes and to the I/O buffer
capacity" (Nat division is the floor). -/
def rateAllowance (rate elapsedUsec remaining capacity : Nat) : Nat :=
  min (min (rate * elapsedUsec / 1000000) remaining) capacity

/-- The idle/busy transfer counters of one window (`idle_transfer_n`,
`busy_transfer_n` of `HttpPipe::CheckTransfer`). -/
structure WindowCounters where
  idle_transfer_n : Nat
  busy_transfer_n : Nat
deriving DecidableEq

/-- Counters at the start of a window: both zero. -/
def windowReset : WindowCounters := ⟨0, 0⟩

/-- Modelled from the spec: `HttpPipe::CheckTransfer` (declared in pipe.h;
pipe.cc is not in src/).  Spec 4.6: "a transfer is allowed if: (tick is
idle AND idleCount < idleLimit) OR (tick is busy AND busyCount <
busyLimit)". -/
def CheckTransfer (idleLimit busyLimit : Nat) (isIdle : Bool)
    (w : WindowCounters) : Bool :=
  if isIdle then decide (w.idle_transfer_n < idleLimit)
  else decide (w.busy_transfer_n < busyLimit)

/-- Modelled from the spec: one tick of the window guard — if the transfer
is permitted, the counter of the tick's kind is incremented; otherwise the
counters are unchanged.  Returns the new counters and the decision. -/
def windowTick (idleLimit busyLimit : Nat) (w : WindowCounters)
    (isIdle : Bool) : WindowCounters × Bool :=
  if CheckTransfer idleLimit busyLimit isIdle w then
    (if isIdle then { w with idle_transfer_n := w.idle_transfer_n + 1 }
     else { w with busy_transfer_n := w.busy_transfer_n + 1 }, true)
  else (w, false)

/-- The sequence of (isIdle, permitted) decisions over the ticks of one
window, starting from counters `w`. -/
def grantTrace (idleLimit busyLimit : Nat) (w : WindowCounters) :
    List Bool → List (Bool × Bool)
  | [] => []
  | t :: ts =>
    let r := windowTick idleLimit busyLimit w t
    (t, r.2) :: grantTrace idleLimit busyLimit r.1 ts

/-- Number of permitted idle transfers in a decision trace. -/
def idleGrants (tr : List (Bool × Bool)) : Nat :=
  tr.countP (fun p => p.1 && p.2)

/-- Number of permitted busy transfers in a decision trace. -/
def busyGrants (tr : List (Bool × Bool)) : Nat :=
  tr.countP (fun p => !p.1 && p.2)

/-- Modelled from the spec: the byte-accounting state of the `Serve` loop
(pipe.cc is not in src/; fields follow pipe.h and spec section 3):
`inbuf` holds bytes read from the input but not yet framed, `pending` the
body of the in-flight transaction, `out_offset`/`content_length` the body
cursor of the OutputFrame, `content_length_backup` the backup restored by
`Rollback`, `retry_n` the connect-retry counter, `sent` the bodies of
completed (acknowledged) transactions, and `consumed` everything ever read
from the input descriptor. -/
structure PipeState where
  inbuf : Bytes
  pending : Bytes
  out_offset : Nat
  content_length : Nat
  content_length_backup : Nat
  retry_n : Nat
  sent : List Bytes
  consumed : Bytes
deriving DecidableEq

/-- The engine state before any input is read. -/
def initPipe : PipeState :=
  { inbuf := [], pending := [], out_offset := 0, content_length := 0,
    content_length_backup := 0, retry_n := 0, sent := [], consumed := [] }

/-- Modelled from the spec: `HttpPipe::Rollback` (declared in pipe.h;
pipe.cc is not in src/).  Spec 4.1: "on send/connect failure, OutputFrame's
body offset is reset to 0 and its length restored from the backup". -/
def Rollback (s : PipeState) : PipeState :=
  { s with out_offset := 0, content_length := s.content_length_backup }

/-- The events of one `Serve` run that move body bytes (spec 4.1/4.2):
reading input, framing a transaction, writing part of the body, a
send/connect failure (followed by `Rollback`), and completing a
transaction once the response body is fully consumed. -/
inductive PipeStep
  | read (bs : Bytes)
  | beginTxn
  | send (n : Nat)
  | fail
  | complete

/-- Modelled from the spec: one event of the `Serve` loop.  `read` appends
to the input buffer; `beginTxn` frames the buffered bytes as the body of a
new transaction, recording its length and the backup; `send n` advances
the body cursor by the `n` bytes written; `fail` (allowed while the retry
counter is below the limit) closes the socket and rolls back; `complete`
(only when the whole body was written) acknowledges the transaction.
Returns `none` for an event impossible in the given state. -/
def pipeStep (retryLimit : Nat) (s : PipeState) : PipeStep → Option PipeState
  | .read bs =>
    some { s with inbuf := s.inbuf ++ bs, consumed := s.consumed ++ bs }
  | .beginTxn =>
    if s.pending = [] ∧ s.inbuf ≠ [] then
      some { s with pending := s.inbuf, inbuf := [],
                    content_length := s.inbuf.length,
                    content_length_backup := s.inbuf.length,
                    out_offset := 0 }
    else none
  | .send n =>
    if s.pending ≠ [] ∧ s.out_offset + n ≤ s.content_length then
      some { s with out_offset := s.out_offset + n }
    else none
  | .fail =>
    if s.retry_n < retryLimit then
      let r := Rollback s
      some { r with retry_n := s.retry_n + 1 }
    else none
  | .complete =>
    if s.pending ≠ [] ∧ s.out_offset = s.content_length then
      some { s with sent := s.sent ++ [s.pending], pending := [],
                    out_offset := 0, content_length := 0,
                    content_length_backup := 0, retry_n := 0 }
    else none

/-- A whole run: apply the events in order, failing if any is impossible. -/
def pipeRun (retryLimit : Nat) (s : PipeState) : List PipeStep → Option PipeState
  | [] => some s
  | st :: rest =>
    match pipeStep retryLimit s st with
    | some s1 => pipeRun retryLimit s1 rest
    | none => none

/-- The concatenation, in order, of the request bodies sent to the server. -/
def concatBodies (l : List Bytes) : Bytes := l.flatten

/-- States whose memoized offset, when nonzero, lies within the stored
buffer contents — true of the fresh header and preserved by `Generate`;
rules out garbage states a C caller could not produce either. -/
abbrev goodState (h : PostHeader) : Prop :=
  h.content_length_offset_ = 0 ∨ h.content_length_offset_ ≤ h.buffer_.length

/-- The serialized header for body size `b` fits in the 2048-byte buffer
(2047 content bytes plus the terminator). -/
abbrev fitsFor (h : PostHeader) (b : Nat) : Prop :=
  (rebuildIfNeeded h).content_length_offset_ + (tailBytes b).length ≤ 2047

/-- The byte-conservation invariant of a `Serve` run: acknowledged bodies,
then the in-flight body, then the unframed input buffer, together are
exactly the bytes read so far. -/
abbrev PipeInv (s : PipeState) : Prop :=
  concatBodies s.sent ++ s.pending ++ s.inbuf = s.consumed

theorem lcEq_lower_eq {f a : Bytes} (h : lcEq f a = true) :
    f.map Char.toLower = a.map Char.toLower := by
  simpa [lcEq] using h

theorem lcEq_excl {f a b : Bytes} (ha : lcEq f a = true) (hb : lcEq f b = true)
    (hab : a.map Char.toLower ≠ b.map Char.toLower) : False :=
  hab ((lcEq_lower_eq ha).symm.trans (lcEq_lower_eq hb))

theorem tailBytes_len (b : Nat) : (tailBytes b).length = (toString b).data.length + 4 := by
  simp [tailBytes, str]

theorem headerPart_len_pos (h : PostHeader) : 0 < (headerPart h).length := by
  simp [headerPart, str]

theorem rebuild_off_pos (h : PostHeader) :
    0 < (rebuildIfNeeded h).content_length_offset_ := by
  by_cases h0 : h.content_length_offset_ = 0
  · simpa [rebuildIfNeeded, h0] using headerPart_len_pos h
  · simpa [rebuildIfNeeded, h0] using Nat.pos_of_ne_zero h0

theorem rebuild_take_off {h : PostHeader} {b : Nat}
    (hg : goodState h) (hf : fitsFor h b) :
    ((rebuildIfNeeded h).buffer_.take (rebuildIfNeeded h).content_length_offset_).length
      = (rebuildIfNeeded h).content_length_offset_ := by
  have htl : 4 ≤ (tailBytes b).length := by
    rw [tailBytes_len]; omega
  by_cases h0 : h.content_length_offset_ = 0
  · have hoff : (rebuildIfNeeded h).content_length_offset_ = (headerPart h).length := by
      simp [rebuildIfNeeded, h0]
    have hle : (headerPart h).length ≤ 2047 := by
      rw [fitsFor, hoff] at hf; omega
    simp [rebuildIfNeeded, h0, strTrunc, List.length_take]
    omega
  · rcases hg with hg | hg
    · exact absurd hg h0
    · simp [rebuildIfNeeded, h0, List.length_take]
      omega

theorem rebuild_tail_full {h : PostHeader} {b : Nat} (hf : fitsFor h b) :
    strTrunc (2048 - (rebuildIfNeeded h).content_length_offset_) (tailBytes b)
      = tailBytes b := by
  rw [fitsFor] at hf
  apply List.take_of_length_le
  omega

theorem Generate_parts {h : PostHeader} {b : Nat}
    (hg : goodState h) (hf : fitsFor h b) :
    (Generate h b).2.1 =
      (rebuildIfNeeded h).buffer_.take (rebuildIfNeeded h).content_length_offset_
        ++ tailBytes b
    ∧ (Generate h b).2.2
        = (rebuildIfNeeded h).content_length_offset_ + (tailBytes b).length
    ∧ (Generate h b).1
        = { rebuildIfNeeded h with
              buffer_ :=
                (rebuildIfNeeded h).buffer_.take (rebuildIfNeeded h).content_length_offset_
                  ++ tailBytes b } := by
  refine ⟨?_, rfl, ?_⟩ <;> simp [Generate, rebuild_tail_full hf]

theorem Generate_off {h : PostHeader} {b : Nat} :
    (Generate h b).1.content_length_offset_
      = (rebuildIfNeeded h).content_length_offset_ := rfl

theorem Generate_goodState {h : PostHeader} {b : Nat}
    (hg : goodState h) (hf : fitsFor h b) : goodState (Generate h b).1 := by
  right
  rw [(Generate_parts hg hf).2.2]
  simp [Generate_off, rebuild_take_off hg hf]

theorem Generate_rebuild_self {h : PostHeader} {b : Nat}
    (hg : goodState h) (hf : fitsFor h b) :
    rebuildIfNeeded (Generate h b).1 = (Generate h b).1 := by
  have := rebuild_off_pos h
  rw [rebuildIfNeeded, if_neg]
  rw [Generate_off]
  omega

theorem Generate_fits {h : PostHeader} {b b' : Nat}
    (hg : goodState h) (hf : fitsFor h b) (hf' : fitsFor h b') :
    fitsFor (Generate h b).1 b' := by
  rw [fitsFor, Generate_rebuild_self hg hf, Generate_off]
  rw [fitsFor] at hf'
  exact hf'

theorem Generate_take_again {h : PostHeader} {b : Nat}
    (hg : goodState h) (hf : fitsFor h b) :
    (Generate h b).1.buffer_.take (Generate h b).1.content_length_offset_
      = (rebuildIfNeeded h).buffer_.take (rebuildIfNeeded h).content_length_offset_ := by
  have hparts := Generate_parts hg hf
  have hb : (Generate h b).1.buffer_ = (Generate h b).2.1 := by
    rw [hparts.2.2, hparts.1]
  rw [hb, hparts.1, Generate_off]
  exact List.take_left' (rebuild_take_off hg hf)

/-- C4: for a configured rate ceiling `R` bytes/second and elapsed
microseconds since the pacing milestone, the per-tick allowance is
`R * elapsed / 1_000_000` rounded down, additionally clamped so that it
never exceeds the remaining unsent body bytes nor the buffer capacity:
it is a lower bound of all three quantities and the greatest such bound. -/
theorem C4_rate_allowance :
    ∀ rate elapsedUsec remaining capacity : Nat,
      rateAllowance rate elapsedUsec remaining capacity ≤ rate * elapsedUsec / 1000000
      ∧ rateAllowance rate elapsedUsec remaining capacity ≤ remaining
      ∧ rateAllowance rate elapsedUsec remaining capacity ≤ capacity
      ∧ (∀ x : Nat, x ≤ rate * elapsedUsec / 1000000 → x ≤ remaining → x ≤ capacity →
          x ≤ rateAllowance rate elapsedUsec remaining capacity) := by
  intro rate elapsedUsec remaining capacity
  refine ⟨?_, ?_, ?_, fun x h1 h2 h3 => ?_⟩ <;> (simp [rateAllowance]; try omega)

/-- C4 witness: at rate 8 B/s over one second with 5 bytes remaining and
capacity 100, the allowance is below the remaining bytes and at least 5. -/
theorem C4_rate_allowance_witness :
    rateAllowance 8 1000000 5 100 ≤ 5 ∧ 5 ≤ rateAllowance 8 1000000 5 100 :=
  ⟨(C4_rate_allowance 8 1000000 5 100).2.1,
   (C4_rate_allowance 8 1000000 5 100).2.2.2 5 (by decide) (by decide) (by decide)⟩

/-- C8: the first `SetRequest` call records the URI as the request path; a
second call on the same instance (path already set) hits `assert(false)`;
when the path is still unset the assertion branch is unreachable. -/
theorem C8_setrequest_once :
    ∀ (h : PostHeader) (method uri ver : Bytes),
      (h.path_ = none → SetRequest h method uri ver = .ok { h with path_ := some uri })
      ∧ (∀ p, h.path_ = some p → SetRequest h method uri ver = .assertFailure)
      ∧ (h.path_ = none → SetRequest h method uri ver ≠ .assertFailure) := by
  intro h method uri ver
  refine ⟨fun h0 => ?_, fun p hp => ?_, fun h0 => ?_⟩ <;>
    simp [SetRequest, *]

/-- C8 witness: on a fresh `PostHeader` the first `SetRequest` stores the URI. -/
theorem C8_setrequest_once_witness :
    SetRequest mkPostHeader (str "POST") (str "/u") (str "HTTP/1.1")
      = .ok { mkPostHeader with path_ := some (str "/u") } :=
  (C8_setrequest_once mkPostHeader (str "POST") (str "/u") (str "HTTP/1.1")).1 rfl

/-- C9: `PostHeader::SetField` hits `assert(false)` for every field name
other than Host, LETV-TV-MAC, LETV-ZIP and Connection (case-insensitively),
and also when LETV-TV-MAC is set while the MAC pointer is already non-null;
for those four fields with the MAC not yet set, the assertion branch is
unreachable. -/
theorem C9_setfield_assert :
    ∀ (h : PostHeader) (field : Bytes) (value : Option Bytes),
      (lcEq field (str "Host") = false → lcEq field (str "LETV-TV-MAC") = false →
        lcEq field (str "LETV-ZIP") = false → lcEq field (str "Connection") = false →
        SetField h field value = .assertFailure)
      ∧ (lcEq field (str "LETV-TV-MAC") = true → h.mac_.isSome →
        SetField h field value = .assertFailure)
      ∧ ((lcEq field (str "Host") = true ∨
          (lcEq field (str "LETV-TV-MAC") = true ∧ h.mac_ = none) ∨
          lcEq field (str "LETV-ZIP") = true ∨
          lcEq field (str "Connection") = true) →
        SetField h field value ≠ .assertFailure) := by
  intro h field value
  refine ⟨fun h1 h2 h3 h4 => ?_, fun h1 h2 => ?_, fun hpos => ?_⟩
  · simp [SetField, h1, h2, h3, h4]
  · have hh : lcEq field (str "Host") = false := by
      by_contra hc
      rw [Bool.not_eq_false] at hc
      exact lcEq_excl hc h1 (by decide)
    have h3 : lcEq field (str "LETV-ZIP") = false := by
      by_contra hc
      rw [Bool.not_eq_false] at hc
      exact lcEq_excl hc h1 (by decide)
    have h4 : lcEq field (str "Connection") = false := by
      by_contra hc
      rw [Bool.not_eq_false] at hc
      exact lcEq_excl hc h1 (by decide)
    have hmac : h.mac_.isNone = false := by
      rcases Option.isSome_iff_exists.mp h2 with ⟨m, hm⟩
      simp [hm]
    simp [SetField, hh, h1, h3, h4, hmac]
  · rcases hpos with h1 | ⟨h1, hmac⟩ | h1 | h1
    · cases value <;> simp [SetField, h1]
    · have hh : lcEq field (str "Host") = false := by
        by_contra hc
        rw [Bool.not_eq_false] at hc
        exact lcEq_excl hc h1 (by decide)
      simp [SetField, hh, h1, hmac]
    · have hh : lcEq field (str "Host") = false := by
        by_contra hc
        rw [Bool.not_eq_false] at hc
        exact lcEq_excl hc h1 (by decide)
      have hm : lcEq field (str "LETV-TV-MAC") = false := by
        by_contra hc
        rw [Bool.not_eq_false] at hc
        exact lcEq_excl hc h1 (by decide)
      simp only [SetField, hh, h1, hm]
      simp
      split <;> simp
    · have hh : lcEq field (str "Host") = false := by
        by_contra hc
        rw [Bool.not_eq_false] at hc
        exact lcEq_excl hc h1 (by decide)
      have hm : lcEq field (str "LETV-TV-MAC") = false := by
        by_contra hc
        rw [Bool.not_eq_false] at hc
        exact lcEq_excl hc h1 (by decide)
      have hz : lcEq field (str "LETV-ZIP") = false := by
        by_contra hc
        rw [Bool.not_eq_false] at hc
        exact lcEq_excl hc h1 (by decide)
      cases value <;> simp only [SetField, hh, h1, hm, hz] <;> simp
      split <;> simp

/-- C9 witness: an unknown field name hits the assertion; setting the MAC a
second time hits the assertion; the MAC's first set does not. -/
theorem C9_setfield_assert_witness :
    SetField mkPostHeader (str "X-Whatever") (some (str "v")) = .assertFailure
    ∧ SetField { mkPostHeader with mac_ := some (str "m") } (str "LETV-TV-MAC")
        (some (str "n")) = .assertFailure
    ∧ SetField mkPostHeader (str "LETV-TV-MAC") (some (str "m")) ≠ .assertFailure :=
  ⟨(C9_setfield_assert mkPostHeader (str "X-Whatever") (some (str "v"))).1
      (by decide) (by decide) (by decide) (by decide),
   (C9_setfield_assert { mkPostHeader with mac_ := some (str "m") } (str "LETV-TV-MAC")
      (some (str "n"))).2.1 (by decide) (by decide),
   (C9_setfield_assert mkPostHeader (str "LETV-TV-MAC") (some (str "m"))).2.2
      (Or.inr (Or.inl ⟨by decide, rfl⟩))⟩

/-- C6: a `SetField` for LETV-ZIP or Connection that changes the resulting
compressed/persistent flag resets the memoized prefix
(`content_length_offset_` becomes 0, so the next `Generate` rebuilds the
full prefix); one that leaves the flag unchanged returns the state intact,
preserving the memoized prefix. -/
theorem C6_prefix_invalidation :
    ∀ (h : PostHeader) (value : Option Bytes) (v : Bytes),
      (value.isSome ≠ h.compressed_ →
        SetField h (str "LETV-ZIP") value =
          .ok { h with content_length_offset_ := 0, compressed_ := value.isSome })
      ∧ (value.isSome = h.compressed_ → SetField h (str "LETV-ZIP") value = .ok h)
      ∧ ((!lcEq v (str "close")) ≠ h.persistent_ →
        SetField h (str "Connection") (some v) =
          .ok { h with content_length_offset_ := 0,
                       persistent_ := !lcEq v (str "close") })
      ∧ ((!lcEq v (str "close")) = h.persistent_ →
        SetField h (str "Connection") (some v) = .ok h)
      ∧ (∀ g : PostHeader, g.content_length_offset_ = 0 →
          (rebuildIfNeeded g).buffer_ = strTrunc 2048 (headerPart g)
          ∧ (rebuildIfNeeded g).content_length_offset_ = (headerPart g).length) := by
  intro h value v
  obtain ⟨mac, path, comp, pers, host, buf, off⟩ := h
  refine ⟨fun hne => ?_, fun heq => ?_, fun hne => ?_, fun heq => ?_,
          fun g hg => ?_⟩
  · cases comp <;> cases hv : value.isSome <;> simp_all +decide [SetField]
  · cases comp <;> cases hv : value.isSome <;> simp_all +decide [SetField]
  · cases pers <;> cases hl : lcEq v (str "close") <;> simp_all +decide [SetField]
  · cases pers <;> cases hl : lcEq v (str "close") <;> simp_all +decide [SetField]
  · simp [rebuildIfNeeded, hg]

/-- C6 witness: enabling compression on a generated header resets the
memoized offset; re-disabling an already-disabled compression keeps the
state (and its memoized prefix) intact. -/
theorem C6_prefix_invalidation_witness :
    SetField { mkPostHeader with content_length_offset_ := 99 } (str "LETV-ZIP")
        (some (str "1"))
      = .ok { mkPostHeader with content_length_offset_ := 0, compressed_ := true }
    ∧ SetField { mkPostHeader with content_length_offset_ := 99 } (str "LETV-ZIP") none
      = .ok { mkPostHeader with content_length_offset_ := 99 } :=
  ⟨(C6_prefix_invalidation { mkPostHeader with content_length_offset_ := 99 }
      (some (str "1")) (str "x")).1 (by decide),
   (C6_prefix_invalidation { mkPostHeader with content_length_offset_ := 99 }
      none (str "x")).2.1 (by decide)⟩

/-- C7 counterexample: the code does not treat oversized configuration
values as a fatal error.  A 3000-byte destination URL is silently cut to
1023 bytes by `ParseOptions`' `strncpy`, and a 100-byte Host value passed
to `SetField` is accepted (`.ok`, no error path) with the stored host
silently truncated to 63 bytes — the process does not report or exit. -/
theorem C7_counterexample :
    destinationOf (List.replicate 3000 'a') = List.replicate 1023 'a'
    ∧ SetField mkPostHeader (str "Host") (some (List.replicate 100 'a'))
        = .ok { mkPostHeader with host_ := List.replicate 63 'a' } := by
  constructor
  · simp only [destinationOf, List.take_replicate]
    norm_num
  · simp +decide [SetField, strTrunc, List.take_replicate]

/-- C7 amended: a destination URL longer than 1023 bytes and a Host value
longer than 63 bytes are silently truncated to those bounds (`strncpy` /
`snprintf` semantics); `SetField` still succeeds and no configuration
error is raised by this code. -/
theorem C7_truncation :
    ∀ (optarg v : Bytes) (h : PostHeader),
      1023 < optarg.length → 63 < v.length →
      destinationOf optarg = optarg.take 1023
      ∧ (destinationOf optarg).length = 1023
      ∧ SetField h (str "Host") (some v) = .ok { h with host_ := v.take 63 }
      ∧ (v.take 63).length = 63 := by
  intro optarg v h h1 h2
  refine ⟨rfl, ?_, ?_, ?_⟩
  · simp [destinationOf, List.length_take]
    omega
  · simp +decide [SetField, strTrunc]
  · simp [List.length_take]
    omega

/-- C7 witness: a 1024-byte URL and a 64-byte host are both truncated. -/
theorem C7_truncation_witness :
    destinationOf (List.replicate 1024 'b') = (List.replicate 1024 'b').take 1023
    ∧ SetField mkPostHeader (str "Host") (some (List.replicate 64 'c'))
        = .ok { mkPostHeader with host_ := (List.replicate 64 'c').take 63 } :=
  ⟨(C7_truncation (List.replicate 1024 'b') (List.replicate 64 'c') mkPostHeader
      (by rw [List.length_replicate]; omega) (by rw [List.length_replicate]; omega)).1,
   (C7_truncation (List.replicate 1024 'b') (List.replicate 64 'c') mkPostHeader
      (by rw [List.length_replicate]; omega) (by rw [List.length_replicate]; omega)).2.2.1⟩

theorem rebuild_pre_of_zero {h : PostHeader} {b : Nat}
    (h0 : h.content_length_offset_ = 0) (hf : fitsFor h b) :
    (rebuildIfNeeded h).buffer_.take (rebuildIfNeeded h).content_length_offset_
      = headerPart h := by
  have hoff : (rebuildIfNeeded h).content_length_offset_ = (headerPart h).length := by
    simp [rebuildIfNeeded, h0]
  have hbuf : (rebuildIfNeeded h).buffer_ = strTrunc 2048 (headerPart h) := by
    simp [rebuildIfNeeded, h0]
  have hPle : (headerPart h).length ≤ 2047 := by
    rw [fitsFor, hoff] at hf; omega
  rw [hbuf, hoff, strTrunc, List.take_take]
  have hmin : min (headerPart h).length (2048 - 1) = (headerPart h).length := by omega
  rw [hmin, List.take_length]

/-- C2: for a `PostHeader` whose request URI, Host and MAC fields have been
set (and whose header fits the 2048-byte buffer), `Generate` produces
exactly `POST <path> HTTP/1.1`, `Host`, `User-Agent: pipe/0.0.1`,
`Accept: */*`, `LETV-TV-MAC`, the `LETV-ZIP: 1` line iff compressed, the
`Connection: close` line iff non-persistent, then
`Content-Length: <bodySize>` and the blank line; and the reported head
size is exactly the length of those bytes. -/
theorem C2_generate_format :
    ∀ (h : PostHeader) (p m : Bytes) (b : Nat),
      h.path_ = some p → h.mac_ = some m → h.content_length_offset_ = 0 →
      fitsFor h b →
      (Generate h b).2.1 =
        str "POST " ++ p ++ str " HTTP/1.1\r\n" ++
        str "Host: " ++ h.host_ ++ str "\r\n" ++
        str "User-Agent: pipe/0.0.1\r\n" ++
        str "Accept: */*\r\n" ++
        str "LETV-TV-MAC: " ++ m ++ str "\r\n" ++
        (if h.compressed_ then str "LETV-ZIP: 1\r\n" else []) ++
        (if h.persistent_ then [] else str "Connection: close\r\n") ++
        str "Content-Length: " ++ (toString b).data ++ str "\r\n\r\n"
      ∧ (Generate h b).2.2 = (Generate h b).2.1.length := by
  intro h p m b hp hm h0 hf
  have hg : goodState h := Or.inl h0
  have hparts := Generate_parts hg hf
  have hoff : (rebuildIfNeeded h).content_length_offset_ = (headerPart h).length := by
    simp [rebuildIfNeeded, h0]
  constructor
  · rw [hparts.1, rebuild_pre_of_zero h0 hf]
    simp only [headerPart, hp, hm, Option.getD_some, tailBytes]
    simp [str, List.append_assoc]
  · rw [hparts.2.1, hparts.1, List.length_append, rebuild_pre_of_zero h0 hf, hoff]

/-- C2 witness: a concrete compressed, non-persistent header with path
`/p`, host `h`, MAC `m` and body size 10. -/
theorem C2_generate_format_witness :
    (Generate { mkPostHeader with
                path_ := some (str "/p"), mac_ := some (str "m"),
                host_ := str "h", compressed_ := true, persistent_ := false } 10).2.1
      = str "POST " ++ str "/p" ++ str " HTTP/1.1\r\n" ++
        str "Host: " ++ str "h" ++ str "\r\n" ++
        str "User-Agent: pipe/0.0.1\r\n" ++
        str "Accept: */*\r\n" ++
        str "LETV-TV-MAC: " ++ str "m" ++ str "\r\n" ++
        str "LETV-ZIP: 1\r\n" ++
        str "Connection: close\r\n" ++
        str "Content-Length: " ++ (toString 10).data ++ str "\r\n\r\n" :=
  (C2_generate_format
    { mkPostHeader with
      path_ := some (str "/p"), mac_ := some (str "m"),
      host_ := str "h", compressed_ := true, persistent_ := false }
    (str "/p") (str "m") 10 rfl rfl rfl (by decide)).1

/-- C3: with fields unchanged, calling `Generate` again with the same body
size returns byte-identical buffer contents and head size; calling it with
a different body size leaves the first `content_length_offset_` prefix
bytes of the buffer unchanged and rewrites only the trailing region, which
holds exactly the new length digits and `\r\n\r\n`. -/
theorem C3_generate_idempotent :
    ∀ (h : PostHeader) (b b' : Nat),
      goodState h → fitsFor h b → fitsFor h b' →
      ((Generate (Generate h b).1 b).2.1 = (Generate h b).2.1
        ∧ (Generate (Generate h b).1 b).2.2 = (Generate h b).2.2)
      ∧ (Generate (Generate h b).1 b').2.1.take (Generate h b).1.content_length_offset_
          = (Generate h b).2.1.take (Generate h b).1.content_length_offset_
      ∧ (Generate (Generate h b).1 b').2.1.drop (Generate h b).1.content_length_offset_
          = tailBytes b' := by
  intro h b b' hg hf hf'
  have hparts := Generate_parts hg hf
  have hg1 := Generate_goodState hg hf
  have hre := Generate_rebuild_self hg hf
  have hf1 : fitsFor (Generate h b).1 b := Generate_fits hg hf hf
  have hf1' : fitsFor (Generate h b).1 b' := Generate_fits hg hf hf'
  have hparts2 := Generate_parts hg1 hf1
  have hparts2' := Generate_parts hg1 hf1'
  have htake := Generate_take_again hg hf
  have hlen := rebuild_take_off hg hf
  rw [hre] at hparts2 hparts2'
  refine ⟨⟨?_, ?_⟩, ?_, ?_⟩
  · rw [hparts2.1, htake, hparts.1]
  · rw [hparts2.2.1, hparts.2.1, Generate_off]
  · rw [hparts2'.1, htake, hparts.1, Generate_off,
        List.take_left' hlen, List.take_left' hlen]
  · rw [hparts2'.1, htake, Generate_off, List.drop_left' hlen]

/-- C3 witness: a concrete header regenerated at the same size 5 and at a
different size 123. -/
theorem C3_generate_idempotent_witness :
    (Generate (Generate { mkPostHeader with
                          path_ := some (str "/p"), mac_ := some (str "m") } 5).1 5).2.1
      = (Generate { mkPostHeader with
                    path_ := some (str "/p"), mac_ := some (str "m") } 5).2.1
    ∧ (Generate (Generate { mkPostHeader with
                            path_ := some (str "/p"), mac_ := some (str "m") } 5).1 123).2.1.drop
        (Generate { mkPostHeader with
                    path_ := some (str "/p"), mac_ := some (str "m") } 5).1.content_length_offset_
      = tailBytes 123 :=
  ⟨(C3_generate_idempotent { mkPostHeader with
        path_ := some (str "/p"), mac_ := some (str "m") } 5 123
      (by decide) (by decide) (by decide)).1.1,
   (C3_generate_idempotent { mkPostHeader with
        path_ := some (str "/p"), mac_ := some (str "m") } 5 123
      (by decide) (by decide) (by decide)).2.2⟩

theorem rebuild_noop (g : PostHeader) (hne : g.content_length_offset_ ≠ 0) :
    rebuildIfNeeded g = g := by
  rw [rebuildIfNeeded, if_neg hne]

/-- C10: once `Generate` has memoized the prefix, `SetField "Host"` stores
the new (truncated) host value but does not reset
`content_length_offset_`, so a later `Generate` still emits the previously
memoized prefix — including the old Host line — followed by the new length
digits. -/
theorem C10_host_not_refreshed :
    ∀ (h : PostHeader) (v : Bytes) (b b' : Nat),
      h.content_length_offset_ = 0 →
      fitsFor h b → fitsFor h b' →
      SetField (Generate h b).1 (str "Host") (some v)
        = .ok { (Generate h b).1 with host_ := strTrunc 64 v }
      ∧ ({ (Generate h b).1 with host_ := strTrunc 64 v } : PostHeader).content_length_offset_
          = (Generate h b).1.content_length_offset_
      ∧ 0 < (Generate h b).1.content_length_offset_
      ∧ (Generate { (Generate h b).1 with host_ := strTrunc 64 v } b').2.1
          = headerPart h ++ tailBytes b' := by
  intro h v b b' h0 hf hf'
  have hg : goodState h := Or.inl h0
  have hg1 := Generate_goodState hg hf
  have hoffpos : 0 < (Generate h b).1.content_length_offset_ := by
    rw [Generate_off]; exact rebuild_off_pos h
  refine ⟨?_, rfl, hoffpos, ?_⟩
  · simp +decide [SetField]
  · have hne2 : ({ (Generate h b).1 with host_ := strTrunc 64 v } :
        PostHeader).content_length_offset_ ≠ 0 := by
      show (Generate h b).1.content_length_offset_ ≠ 0
      omega
    have hre2 := rebuild_noop _ hne2
    have hg2 : goodState { (Generate h b).1 with host_ := strTrunc 64 v } := hg1
    have hf2' : fitsFor { (Generate h b).1 with host_ := strTrunc 64 v } b' := by
      show (rebuildIfNeeded _).content_length_offset_ + (tailBytes b').length ≤ 2047
      rw [hre2]
      show (Generate h b).1.content_length_offset_ + (tailBytes b').length ≤ 2047
      rw [Generate_off]
      exact hf'
    have hp2 := Generate_parts hg2 hf2'
    rw [hp2.1, hre2]
    show (Generate h b).1.buffer_.take (Generate h b).1.content_length_offset_
          ++ tailBytes b' = _
    rw [Generate_take_again hg hf, rebuild_pre_of_zero h0 hf]

/-- C10 witness: after generating once for path `/p` and host `old`,
changing the host to `new` and regenerating still emits the `Host: old`
prefix. -/
theorem C10_host_not_refreshed_witness :
    (Generate { (Generate { mkPostHeader with
                            path_ := some (str "/p"), mac_ := some (str "m"),
                            host_ := str "old" } 5).1 with
                host_ := strTrunc 64 (str "new") } 777).2.1
      = headerPart { mkPostHeader with
                     path_ := some (str "/p"), mac_ := some (str "m"),
                     host_ := str "old" } ++ tailBytes 777 :=
  (C10_host_not_refreshed { mkPostHeader with
      path_ := some (str "/p"), mac_ := some (str "m"), host_ := str "old" }
    (str "new") 5 777 rfl (by decide) (by decide)).2.2.2

theorem idleGrants_le (iL bL : Nat) (ts : List Bool) :
    ∀ w : WindowCounters,
      idleGrants (grantTrace iL bL w ts) ≤ iL - w.idle_transfer_n := by
  induction ts with
  | nil => intro w; simp [grantTrace, idleGrants]
  | cons t ts ih =>
    intro w
    cases t
    · by_cases hlt : w.busy_transfer_n < bL
      · have hr := ih { w with busy_transfer_n := w.busy_transfer_n + 1 }
        simp [grantTrace, windowTick, CheckTransfer, hlt, idleGrants,
              List.countP_cons] at hr ⊢
        omega
      · have hr := ih w
        simp [grantTrace, windowTick, CheckTransfer, hlt, idleGrants,
              List.countP_cons] at hr ⊢
        omega
    · by_cases hlt : w.idle_transfer_n < iL
      · have hr := ih { w with idle_transfer_n := w.idle_transfer_n + 1 }
        simp [grantTrace, windowTick, CheckTransfer, hlt, idleGrants,
              List.countP_cons] at hr ⊢
        omega
      · have hr := ih w
        simp [grantTrace, windowTick, CheckTransfer, hlt, idleGrants,
              List.countP_cons] at hr ⊢
        omega

theorem busyGrants_le (iL bL : Nat) (ts : List Bool) :
    ∀ w : WindowCounters,
      busyGrants (grantTrace iL bL w ts) ≤ bL - w.busy_transfer_n := by
  induction ts with
  | nil => intro w; simp [grantTrace, busyGrants]
  | cons t ts ih =>
    intro w
    cases t
    · by_cases hlt : w.busy_transfer_n < bL
      · have hr := ih { w with busy_transfer_n := w.busy_transfer_n + 1 }
        simp [grantTrace, windowTick, CheckTransfer, hlt, busyGrants,
              List.countP_cons] at hr ⊢
        omega
      · have hr := ih w
        simp [grantTrace, windowTick, CheckTransfer, hlt, busyGrants,
              List.countP_cons] at hr ⊢
        omega
    · by_cases hlt : w.idle_transfer_n < iL
      · have hr := ih { w with idle_transfer_n := w.idle_transfer_n + 1 }
        simp [grantTrace, windowTick, CheckTransfer, hlt, busyGrants,
              List.countP_cons] at hr ⊢
        omega
      · have hr := ih w
        simp [grantTrace, windowTick, CheckTransfer, hlt, busyGrants,
              List.countP_cons] at hr ⊢
        omega

/-- C5: a transfer is permitted at a tick exactly when the tick is idle
and the idle count is below the idle limit, or the tick is busy and the
busy count is below the busy limit; each window starts from zeroed
counters, and within any window the number of permitted idle transfers
never exceeds the idle limit nor the permitted busy transfers the busy
limit. -/
theorem C5_window_guard :
    (∀ (iL bL : Nat) (w : WindowCounters) (isIdle : Bool),
        (windowTick iL bL w isIdle).2 = true ↔
          ((isIdle = true ∧ w.idle_transfer_n < iL)
            ∨ (isIdle = false ∧ w.busy_transfer_n < bL)))
    ∧ windowReset.idle_transfer_n = 0 ∧ windowReset.busy_transfer_n = 0
    ∧ (∀ (iL bL : Nat) (windows : List (List Bool)) (tr : List (Bool × Bool)),
        tr ∈ windows.map (grantTrace iL bL windowReset) →
          idleGrants tr ≤ iL ∧ busyGrants tr ≤ bL) := by
  refine ⟨fun iL bL w isIdle => ?_, rfl, rfl, fun iL bL windows tr htr => ?_⟩
  · cases isIdle
    · by_cases hlt : w.busy_transfer_n < bL <;>
        simp [windowTick, CheckTransfer, hlt]
    · by_cases hlt : w.idle_transfer_n < iL <;>
        simp [windowTick, CheckTransfer, hlt]
  · rcases List.mem_map.mp htr with ⟨ts, hts, rfl⟩
    constructor
    · simpa [windowReset] using idleGrants_le iL bL ts windowReset
    · simpa [windowReset] using busyGrants_le iL bL ts windowReset

/-- C5 witness: with idle limit 1 and busy limit 3, a window of three idle
ticks grants at most one idle transfer. -/
theorem C5_window_guard_witness :
    idleGrants (grantTrace 1 3 windowReset [true, true, true]) ≤ 1
    ∧ busyGrants (grantTrace 1 3 windowReset [true, true, true]) ≤ 3 :=
  C5_window_guard.2.2.2 1 3 [[true, true, true]]
    (grantTrace 1 3 windowReset [true, true, true]) (by simp)

theorem pipeStep_inv (L : Nat) (s s' : PipeState) (e : PipeStep)
    (hi : PipeInv s) (he : pipeStep L s e = some s') : PipeInv s' := by
  cases e with
  | read bs =>
    simp only [pipeStep, Option.some.injEq] at he
    subst he
    show concatBodies s.sent ++ s.pending ++ (s.inbuf ++ bs) = s.consumed ++ bs
    rw [← hi]
    simp [List.append_assoc]
  | beginTxn =>
    rw [pipeStep] at he
    split at he
    · next hcond =>
      simp only [Option.some.injEq] at he
      subst he
      show concatBodies s.sent ++ s.inbuf ++ [] = s.consumed
      rw [← hi, hcond.1]
      simp
    · exact absurd he (by simp)
  | send n =>
    rw [pipeStep] at he
    split at he
    · simp only [Option.some.injEq] at he
      subst he
      exact hi
    · exact absurd he (by simp)
  | fail =>
    rw [pipeStep] at he
    split at he
    · simp only [Option.some.injEq] at he
      subst he
      exact hi
    · exact absurd he (by simp)
  | complete =>
    rw [pipeStep] at he
    split at he
    · simp only [Option.some.injEq] at he
      subst he
      show concatBodies (s.sent ++ [s.pending]) ++ [] ++ s.inbuf = s.consumed
      rw [← hi]
      simp [concatBodies, List.append_assoc]
    · exact absurd he (by simp)

theorem pipeRun_inv (L : Nat) (steps : List PipeStep) :
    ∀ s s', PipeInv s → pipeRun L s steps = some s' → PipeInv s' := by
  induction steps with
  | nil =>
    intro s s' hi h
    simp only [pipeRun, Option.some.injEq] at h
    rwa [← h]
  | cons e rest ih =>
    intro s s' hi h
    rw [pipeRun] at h
    cases hstep : pipeStep L s e with
    | none => rw [hstep] at h; exact absurd h (by simp)
    | some s1 =>
      rw [hstep] at h
      exact ih s1 s' (pipeStep_inv L s s1 e hi hstep) h

/-- C1: in every `Serve` run in which each mid-transaction failure is
followed by `Rollback` and the retry counter stays within the limit, once
the in-flight body and the input buffer have drained, the concatenation of
the request bodies sent to the server is exactly the bytes read from the
input descriptor — no byte lost, none duplicated; and every failure step
performs exactly the `Rollback` bookkeeping (body offset 0, length
restored from the backup) with the pending payload kept verbatim. -/
theorem C1_rollback_exactly_once :
    (∀ (retryLimit : Nat) (steps : List PipeStep) (s : PipeState),
        pipeRun retryLimit initPipe steps = some s →
        s.pending = [] → s.inbuf = [] →
        concatBodies s.sent = s.consumed)
    ∧ (∀ (retryLimit : Nat) (s s' : PipeState),
        pipeStep retryLimit s .fail = some s' →
        s' = { Rollback s with retry_n := s.retry_n + 1 }
        ∧ s'.pending = s.pending ∧ s'.out_offset = 0
        ∧ s'.content_length = s'.content_length_backup
        ∧ s'.sent = s.sent ∧ s'.consumed = s.consumed) := by
  constructor
  · intro retryLimit steps s hrun hp hb
    have hinit : PipeInv initPipe := by simp [PipeInv, initPipe, concatBodies]
    have hinv := pipeRun_inv retryLimit steps initPipe s hinit hrun
    rw [PipeInv, hp, hb] at hinv
    simpa using hinv
  · intro retryLimit s s' he
    rw [pipeStep] at he
    split at he
    · simp only [Option.some.injEq] at he
      subst he
      exact ⟨rfl, rfl, rfl, rfl, rfl, rfl⟩
    · exact absurd he (by simp)

/-- C1 witness: reading "ab", framing it, sending one byte, failing (and
rolling back), then resending the whole body and completing delivers
exactly "ab" once. -/
theorem C1_rollback_exactly_once_witness :
    pipeRun 3 initPipe
        [.read (str "ab"), .beginTxn, .send 1, .fail, .send 2, .complete]
      = some { inbuf := [], pending := [], out_offset := 0, content_length := 0,
               content_length_backup := 0, retry_n := 0,
               sent := [str "ab"], consumed := str "ab" }
    ∧ concatBodies [str "ab"] = str "ab" :=
  ⟨by decide,
   C1_rollback_exactly_once.1 3
     [.read (str "ab"), .beginTxn, .send 1, .fail, .send 2, .complete]
     { inbuf := [], pending := [], out_offset := 0, content_length := 0,
       content_length_backup := 0, retry_n := 0,
       sent := [str "ab"], consumed := str "ab" }
     (by decide) rfl rfl⟩
